import Mathlib

/-!
Verification of the tower-defense engine (danvargg/tower_defense).

This file gives a shallow embedding, in Lean 4, of the parts of the code the
claims speak about:

* `tower/path_finging.py`: the randomized depth-first path search
  (`dfs_find_path`), path-to-direction conversion (`get_directions`) and the
  trajectory generator (`make_enemy_path`, with `interpolate` from
  `tower/utils.py`);
* `tower/sprites.py`: `Turret.shoot`, `Enemy.update` and the animation roll;
* `tower/game.py`: `GameModeElimination` (`create`, `reset`, `has_lost`,
  `has_won`, `can_place_turret`, `next`), `GameEdit.handle_collision`
  (the three per-tick collision rules) and the level loading pipeline
  (`open_level` / `load_level` / `create_background_tile_map`).

Modelling conventions:

* The `GridTile` graph built by `walk_grid` is represented by a finite vertex
  set plus an adjacency-list function (`PathGraph`).  A `GridTile`'s four
  optional neighbour slots, after the `random.shuffle` in `dfs_find_path`,
  are an arbitrary ordering of the present neighbours, so all theorems
  quantify over every adjacency function; absent (`None`) directions, which
  the Python `_walk` rejects without touching state, are simply not listed.
* The recursion of `_walk` is bounded by a fuel argument.  Each nested
  recursive call strictly grows the `visited` dictionary with a vertex of the
  (finite) grid, so `|verts|` fuel is enough; the lemmas below prove exactly
  that (the fuel-zero branch is never observable when the fuel bound holds).
* pygame's `Vector2` float components are modelled by exact rationals; the
  length/counting claims proved here do not depend on rounding.
* Mutating Python methods become state-passing functions; a raised exception
  becomes an `Option`/error component paired with the state at the point of
  the raise.
-/

namespace Tower

/-- A grid position `(gx, gy)`, the key of the `visited` dictionaries in
`tower/path_finging.py`. -/
abbrev Pos : Type := ℤ × ℤ

/-- The graph of `GridTile`s that `walk_grid` builds: a finite set of walkable
positions and, for each position, the list of its present neighbours
(the non-`None` entries among east/west/north/south, in the order the
`random.shuffle` of `dfs_find_path` happens to produce). -/
structure PathGraph where
  verts : Finset Pos
  adj : Pos → List Pos

/-- Well-formedness of the built graph: a neighbour of a vertex is a vertex
(`walk_grid` only links `GridTile`s it created). -/
def PathGraph.WF (G : PathGraph) : Prop :=
  ∀ v ∈ G.verts, ∀ n ∈ G.adj v, n ∈ G.verts

/-- The edge relation of the graph: `b` is one of the neighbour slots of `a`. -/
def PathGraph.Edge (G : PathGraph) (a b : Pos) : Prop :=
  b ∈ G.adj a

/-- Reachability through walkable tiles while avoiding an already-visited set:
every step lands outside `visited`.  With `visited = ∅` this is plain
reachability in the `GridTile` graph. -/
inductive ReachAvoid (G : PathGraph) (visited : Finset Pos) : Pos → Pos → Prop where
  | refl (a : Pos) : ReachAvoid G visited a a
  | head {a b c : Pos} (hadj : b ∈ G.adj a) (hnb : b ∉ visited)
      (h : ReachAvoid G visited b c) : ReachAvoid G visited a c

/-- The `for direction in directions` loop of `_walk`
(`tower/path_finging.py`, lines 133-143): try each neighbour in turn with the
current path, returning the first non-empty subpath; the `visited` dictionary
(threaded here as the second component) persists across failed branches. -/
def dfsStep (walk : List Pos → Pos → Finset Pos → List Pos × Finset Pos) :
    List Pos → List Pos → Finset Pos → List Pos × Finset Pos
  | _path, [], visited => ([], visited)
  | path, d :: rest, visited =>
    if (walk path d visited).1 = [] then
      dfsStep walk path rest (walk path d visited).2
    else walk path d visited

/-- The recursive `_walk` of `dfs_find_path` (`tower/path_finging.py`, lines
102-143), with the recursion depth bounded by `fuel`: return `[]` if the
current tile was already visited, otherwise mark it visited, succeed with
`path ++ [cur]` if it is a stop position, and otherwise try the (shuffled)
neighbours in order.  `fuel = |verts|` is enough fuel: every nested call
inserts a fresh vertex into `visited`. -/
def dfsWalk (G : PathGraph) (stops : List Pos) :
    ℕ → List Pos → Pos → Finset Pos → List Pos × Finset Pos
  | 0, _, _, visited => ([], visited)
  | fuel + 1, path, cur, visited =>
    if cur ∈ visited then ([], visited)
    else if cur ∈ stops then (path ++ [cur], insert cur visited)
    else dfsStep (dfsWalk G stops fuel) (path ++ [cur]) (G.adj cur) (insert cur visited)

/-- `dfs_find_path(start_tile, stop_positions)` (`tower/path_finging.py`,
lines 67-145): run `_walk` from the start tile with an initially empty
`visited` dictionary. -/
def dfs_find_path (G : PathGraph) (stops : List Pos) (start : Pos) : List Pos :=
  (dfsWalk G stops G.verts.card [] start ∅).1

theorem dfsStep_visited_mono
    (walk : List Pos → Pos → Finset Pos → List Pos × Finset Pos)
    (hw : ∀ p d v, v ⊆ (walk p d v).2) :
    ∀ (path dirs : List Pos) (visited : Finset Pos),
      visited ⊆ (dfsStep walk path dirs visited).2 := by
  intro path dirs
  induction dirs with
  | nil => intro visited; simp [dfsStep]
  | cons d rest ih =>
    intro visited
    simp only [dfsStep]
    split
    · exact (hw path d visited).trans (ih _)
    · exact hw path d visited

theorem dfsWalk_visited_mono (G : PathGraph) (stops : List Pos) :
    ∀ (fuel : ℕ) (path : List Pos) (cur : Pos) (visited : Finset Pos),
      visited ⊆ (dfsWalk G stops fuel path cur visited).2 := by
  intro fuel
  induction fuel with
  | zero => intro path cur visited; simp [dfsWalk]
  | succ n ih =>
    intro path cur visited
    simp only [dfsWalk]
    split
    · simp
    · split
      · exact Finset.subset_insert _ _
      · exact (Finset.subset_insert _ _).trans
          (dfsStep_visited_mono _ (fun p d v => ih p d v) _ _ _)

/-- Postcondition of a successful `_walk` call: a non-empty result extends the
incoming `path` with the current tile first, repeats no node, walks along
graph edges, and ends on a stop position. -/
def WalkPost (G : PathGraph) (stops : List Pos) (path : List Pos) (cur : Pos)
    (visited : Finset Pos) (r : List Pos × Finset Pos) : Prop :=
  path.Nodup → (∀ p ∈ path, p ∈ visited) → List.Chain' G.Edge (path ++ [cur]) →
    r.1 ≠ [] →
      (∃ rest, r.1 = path ++ cur :: rest) ∧ r.1.Nodup ∧
        List.Chain' G.Edge r.1 ∧ ∃ s ∈ stops, r.1.getLast? = some s

theorem dfsStep_success (G : PathGraph) (stops : List Pos)
    (walk : List Pos → Pos → Finset Pos → List Pos × Finset Pos)
    (hmono : ∀ p d v, v ⊆ (walk p d v).2)
    (hw : ∀ p d v, WalkPost G stops p d v (walk p d v)) :
    ∀ (dirs path : List Pos) (visited : Finset Pos),
      path.Nodup → (∀ p ∈ path, p ∈ visited) →
      (∀ d ∈ dirs, List.Chain' G.Edge (path ++ [d])) →
      (dfsStep walk path dirs visited).1 ≠ [] →
        (∃ suffix, suffix ≠ [] ∧ (dfsStep walk path dirs visited).1 = path ++ suffix) ∧
        (dfsStep walk path dirs visited).1.Nodup ∧
        List.Chain' G.Edge (dfsStep walk path dirs visited).1 ∧
        ∃ s ∈ stops, (dfsStep walk path dirs visited).1.getLast? = some s := by
  intro dirs
  induction dirs with
  | nil => intro path visited _ _ _ hne; simp [dfsStep] at hne
  | cons d rest ih =>
    intro path visited hnd hsub hchain hne
    by_cases h0 : (walk path d visited).1 = []
    · rw [dfsStep, if_pos h0] at hne ⊢
      exact ih path ((walk path d visited).2) hnd
        (fun p hp => hmono path d visited (hsub p hp))
        (fun x hx => hchain x (List.mem_cons_of_mem _ hx)) hne
    · rw [dfsStep, if_neg h0] at hne ⊢
      obtain ⟨⟨rest2, hshape⟩, hnodup, hch, hlast⟩ :=
        hw path d visited hnd hsub (hchain d (List.mem_cons_self _ _)) hne
      exact ⟨⟨d :: rest2, by simp, hshape⟩, hnodup, hch, hlast⟩

theorem dfsWalk_success (G : PathGraph) (stops : List Pos) :
    ∀ (fuel : ℕ) (path : List Pos) (cur : Pos) (visited : Finset Pos),
      WalkPost G stops path cur visited (dfsWalk G stops fuel path cur visited) := by
  intro fuel
  induction fuel with
  | zero => intro path cur visited _ _ _ hne; simp [dfsWalk] at hne
  | succ n ih =>
    intro path cur visited hnd hsub hch hne
    rw [dfsWalk] at hne ⊢
    by_cases h1 : cur ∈ visited
    · rw [if_pos h1] at hne; simp at hne
    · rw [if_neg h1] at hne ⊢
      have hnd2 : (path ++ [cur]).Nodup := by
        refine List.Nodup.append hnd (List.nodup_singleton _) ?_
        intro a ha hb
        rw [List.mem_singleton] at hb
        subst hb
        exact h1 (hsub a ha)
      by_cases h2 : cur ∈ stops
      · rw [if_pos h2] at hne ⊢
        exact ⟨⟨[], rfl⟩, hnd2, hch, ⟨cur, h2, List.getLast?_concat _⟩⟩
      · rw [if_neg h2] at hne ⊢
        have hsub2 : ∀ p ∈ path ++ [cur], p ∈ insert cur visited := by
          intro p hp
          rcases List.mem_append.mp hp with h | h
          · exact Finset.mem_insert_of_mem (hsub p h)
          · rw [List.mem_singleton] at h
            subst h
            exact Finset.mem_insert_self _ _
        have hchains : ∀ d ∈ G.adj cur, List.Chain' G.Edge ((path ++ [cur]) ++ [d]) := by
          intro d hd
          refine List.Chain'.append hch (List.chain'_singleton d) ?_
          intro x hx y hy
          rw [List.getLast?_concat] at hx
          rw [List.head?_cons] at hy
          cases hx
          cases hy
          exact hd
        obtain ⟨⟨suffix, hsne, hshape⟩, hnodup, hchain, hlast⟩ :=
          dfsStep_success G stops (dfsWalk G stops n)
            (fun p d v => dfsWalk_visited_mono G stops n p d v)
            (fun p d v => ih p d v)
            (G.adj cur) (path ++ [cur]) (insert cur visited) hnd2 hsub2 hchains hne
        exact ⟨⟨suffix, by rw [hshape]; simp⟩, hnodup, hchain, hlast⟩

/-- Postcondition of a failed `_walk` call (the returned path is empty): the
current tile was recorded in `visited`, every newly visited tile had all its
neighbours explored, and no stop position was newly visited. -/
def WalkFail (G : PathGraph) (stops : List Pos) (cur : Pos) (visited : Finset Pos)
    (r : List Pos × Finset Pos) : Prop :=
  r.1 = [] →
    cur ∈ r.2 ∧
    (∀ x ∈ r.2, x ∉ visited → ∀ y ∈ G.adj x, y ∈ r.2) ∧
    (∀ s ∈ stops, s ∈ r.2 → s ∈ visited)

theorem dfsStep_fail (G : PathGraph) (stops : List Pos)
    (walk : List Pos → Pos → Finset Pos → List Pos × Finset Pos) (B : ℕ)
    (hmono : ∀ p d v, v ⊆ (walk p d v).2)
    (hw : ∀ p d v, d ∈ G.verts → (G.verts \ v).card ≤ B →
      WalkFail G stops d v (walk p d v)) :
    ∀ (dirs path : List Pos) (visited : Finset Pos),
      (∀ d ∈ dirs, d ∈ G.verts) → (G.verts \ visited).card ≤ B →
      (dfsStep walk path dirs visited).1 = [] →
        (∀ d ∈ dirs, d ∈ (dfsStep walk path dirs visited).2) ∧
        (∀ x ∈ (dfsStep walk path dirs visited).2, x ∉ visited →
          ∀ y ∈ G.adj x, y ∈ (dfsStep walk path dirs visited).2) ∧
        (∀ s ∈ stops, s ∈ (dfsStep walk path dirs visited).2 → s ∈ visited) := by
  intro dirs
  induction dirs with
  | nil =>
    intro path visited _ _ _
    refine ⟨by simp, ?_, ?_⟩
    · intro x hx hxv
      rw [dfsStep] at hx
      exact absurd hx hxv
    · intro s _ hsv
      rw [dfsStep] at hsv
      exact hsv
  | cons d rest ih =>
    intro path visited hdv hcard hfail
    by_cases h0 : (walk path d visited).1 = []
    · rw [dfsStep, if_pos h0] at hfail ⊢
      obtain ⟨hd1, hclo1, hstop1⟩ := hw path d visited (hdv d (List.mem_cons_self _ _)) hcard h0
      have hsub1 : visited ⊆ (walk path d visited).2 := hmono path d visited
      have hcard1 : (G.verts \ (walk path d visited).2).card ≤ B :=
        le_trans (Finset.card_le_card (Finset.sdiff_subset_sdiff (Finset.Subset.refl _) hsub1)) hcard
      obtain ⟨hdr, hclo2, hstop2⟩ := ih path ((walk path d visited).2)
        (fun x hx => hdv x (List.mem_cons_of_mem _ hx)) hcard1 hfail
      have hsub2 : (walk path d visited).2 ⊆ (dfsStep walk path rest (walk path d visited).2).2 :=
        dfsStep_visited_mono walk hmono path rest _
      refine ⟨?_, ?_, ?_⟩
      · intro x hx
        rcases List.mem_cons.mp hx with h | h
        · subst h; exact hsub2 hd1
        · exact hdr x h
      · intro x hx hxv y hy
        by_cases hx1 : x ∈ (walk path d visited).2
        · exact hsub2 (hclo1 x hx1 hxv y hy)
        · exact hclo2 x hx hx1 y hy
      · intro s hs hsR
        exact hstop1 s hs (hstop2 s hs hsR)
    · rw [dfsStep, if_neg h0] at hfail
      exact absurd hfail h0

theorem dfsWalk_fail (G : PathGraph) (stops : List Pos) (hwf : G.WF) :
    ∀ (fuel : ℕ) (path : List Pos) (cur : Pos) (visited : Finset Pos),
      cur ∈ G.verts → (G.verts \ visited).card ≤ fuel →
      WalkFail G stops cur visited (dfsWalk G stops fuel path cur visited) := by
  intro fuel
  induction fuel with
  | zero =>
    intro path cur visited hcv hcard _
    have hmem : cur ∈ visited := by
      have h0 : G.verts \ visited = ∅ := Finset.card_eq_zero.mp (Nat.le_zero.mp hcard)
      by_contra hx
      have : cur ∈ G.verts \ visited := Finset.mem_sdiff.mpr ⟨hcv, hx⟩
      rw [h0] at this
      exact absurd this (Finset.not_mem_empty _)
    rw [dfsWalk]
    exact ⟨hmem, fun x hx hxv => absurd hx hxv, fun s _ hsv => hsv⟩
  | succ n ih =>
    intro path cur visited hcv hcard hfail
    rw [dfsWalk] at hfail ⊢
    by_cases h1 : cur ∈ visited
    · rw [if_pos h1] at hfail ⊢
      exact ⟨h1, fun x hx hxv => absurd hx hxv, fun s _ hsv => hsv⟩
    · rw [if_neg h1] at hfail ⊢
      by_cases h2 : cur ∈ stops
      · rw [if_pos h2] at hfail; simp at hfail
      · rw [if_neg h2] at hfail ⊢
        have hmem : cur ∈ G.verts \ visited := Finset.mem_sdiff.mpr ⟨hcv, h1⟩
        have hcard2 : (G.verts \ insert cur visited).card ≤ n := by
          rw [Finset.sdiff_insert, Finset.card_erase_of_mem hmem]
          have h3 : 1 ≤ (G.verts \ visited).card := Finset.card_pos.mpr ⟨cur, hmem⟩
          omega
        obtain ⟨hdirs, hclo, hstop⟩ := dfsStep_fail G stops (dfsWalk G stops n) n
          (fun p d v => dfsWalk_visited_mono G stops n p d v)
          (fun p d v hdv hc => ih p d v hdv hc)
          (G.adj cur) (path ++ [cur]) (insert cur visited)
          (fun d hd => hwf cur hcv d hd) hcard2 hfail
        refine ⟨?_, ?_, ?_⟩
        · exact dfsStep_visited_mono _ (fun p d v => dfsWalk_visited_mono G stops n p d v)
            _ _ _ (Finset.mem_insert_self cur visited)
        · intro x hx hxv y hy
          by_cases hxc : x = cur
          · subst hxc; exact hdirs y hy
          · refine hclo x hx ?_ y hy
            intro hcontra
            rcases Finset.mem_insert.mp hcontra with h | h
            · exact hxc h
            · exact hxv h
        · intro s hs hsR
          rcases Finset.mem_insert.mp (hstop s hs hsR) with h | h
          · subst h; exact absurd hs h2
          · exact h

theorem reachAvoid_mem_of_closure (G : PathGraph) {visited V : Finset Pos}
    (hcl : ∀ x ∈ V, x ∉ visited → ∀ y ∈ G.adj x, y ∈ V)
    {a b : Pos} (h : ReachAvoid G visited a b) : a ∈ V → a ∉ visited → b ∈ V := by
  induction h with
  | refl c => exact fun h1 _ => h1
  | head hadj hnb _ ih => exact fun h1 h2 => ih (hcl _ h1 h2 _ hadj) hnb

theorem chain_reachAvoid (G : PathGraph) :
    ∀ (l : List Pos) (a b : Pos), List.Chain' G.Edge (a :: l) →
      (a :: l).getLast? = some b → ReachAvoid G (∅ : Finset Pos) a b := by
  intro l
  induction l with
  | nil =>
    intro a b _ hlast
    rw [List.getLast?_singleton] at hlast
    cases hlast
    exact ReachAvoid.refl a
  | cons c l2 ih =>
    intro a b hch hlast
    rw [List.chain'_cons] at hch
    refine ReachAvoid.head hch.1 (Finset.not_mem_empty _) (ih c b hch.2 ?_)
    rw [List.getLast?_cons_cons] at hlast
    exact hlast

/-- C1: For every finite tile grid containing at least one (start, stop) pair
reachable through walkable tiles, `dfs_find_path` applied to the start node
and the set of stop positions terminates (with fuel `|verts|`, which the
failure lemmas show is never exhausted) and returns a non-empty path whose
nodes are pairwise distinct, whose first node is the given start node, and
whose last node's position is one of the stop positions. -/
theorem dfs_find_path_finds_path (G : PathGraph) (stops : List Pos) (start : Pos)
    (hwf : G.WF) (hstart : start ∈ G.verts)
    (hreach : ∃ s ∈ stops, ReachAvoid G (∅ : Finset Pos) start s) :
    dfs_find_path G stops start ≠ [] ∧
    (dfs_find_path G stops start).Nodup ∧
    (dfs_find_path G stops start).head? = some start ∧
    ∃ s ∈ stops, (dfs_find_path G stops start).getLast? = some s := by
  have hcard : (G.verts \ (∅ : Finset Pos)).card ≤ G.verts.card := by
    rw [Finset.sdiff_empty]
  have hne : (dfsWalk G stops G.verts.card [] start ∅).1 ≠ [] := by
    intro hfail
    obtain ⟨hcur, hclo, hstop⟩ :=
      dfsWalk_fail G stops hwf G.verts.card [] start ∅ hstart hcard hfail
    obtain ⟨s, hs, hr⟩ := hreach
    have hsv : s ∈ (dfsWalk G stops G.verts.card [] start ∅).2 :=
      reachAvoid_mem_of_closure G hclo hr hcur (Finset.not_mem_empty _)
    exact absurd (hstop s hs hsv) (Finset.not_mem_empty _)
  obtain ⟨⟨rest, hshape⟩, hnodup, _, hlast⟩ :=
    dfsWalk_success G stops G.verts.card [] start ∅ (List.nodup_nil)
      (by intro p hp; exact absurd hp (List.not_mem_nil p))
      (by simp) hne
  refine ⟨hne, hnodup, ?_, hlast⟩
  unfold dfs_find_path
  rw [hshape]
  rfl

/-- A two-node graph with a single edge from the start tile to the stop tile,
used as a concrete instance for the pathfinding theorems. -/
def G1 : PathGraph :=
  { verts := {((0 : ℤ), (0 : ℤ)), ((1 : ℤ), (0 : ℤ))},
    adj := fun p => if p = ((0 : ℤ), (0 : ℤ)) then [((1 : ℤ), (0 : ℤ))] else [] }

theorem dfs_find_path_finds_path_witness :
    dfs_find_path G1 [((1 : ℤ), (0 : ℤ))] ((0 : ℤ), (0 : ℤ)) ≠ [] ∧
    (dfs_find_path G1 [((1 : ℤ), (0 : ℤ))] ((0 : ℤ), (0 : ℤ))).Nodup ∧
    (dfs_find_path G1 [((1 : ℤ), (0 : ℤ))] ((0 : ℤ), (0 : ℤ))).head? =
      some ((0 : ℤ), (0 : ℤ)) ∧
    ∃ s ∈ [((1 : ℤ), (0 : ℤ))],
      (dfs_find_path G1 [((1 : ℤ), (0 : ℤ))] ((0 : ℤ), (0 : ℤ))).getLast? = some s :=
  dfs_find_path_finds_path G1 [((1 : ℤ), (0 : ℤ))] ((0 : ℤ), (0 : ℤ))
    (by unfold PathGraph.WF; decide) (by decide)
    ⟨((1 : ℤ), (0 : ℤ)), by decide,
      ReachAvoid.head (by decide) (by decide) (ReachAvoid.refl _)⟩

/-- C2: For every finite tile grid in which no stop position is reachable from
the given start node through walkable tiles, `dfs_find_path` terminates and
returns an empty result (the Lean model is a total function, so no exception
is possible; the Python `_walk` raises nothing on this code path either). -/
theorem dfs_find_path_empty_of_unreachable (G : PathGraph) (stops : List Pos)
    (start : Pos)
    (hnone : ∀ s ∈ stops, ¬ ReachAvoid G (∅ : Finset Pos) start s) :
    dfs_find_path G stops start = [] := by
  by_contra hne
  obtain ⟨⟨rest, hshape⟩, _, hchain, ⟨s, hs, hlast⟩⟩ :=
    dfsWalk_success G stops G.verts.card [] start ∅ (List.nodup_nil)
      (by intro p hp; exact absurd hp (List.not_mem_nil p))
      (by simp) hne
  rw [List.nil_append] at hshape
  have hchain2 : List.Chain' G.Edge (start :: rest) := by
    rw [← hshape]
    exact hchain
  have hlast2 : (start :: rest).getLast? = some s := by
    rw [← hshape]
    exact hlast
  exact hnone s hs (chain_reachAvoid G rest start s hchain2 hlast2)

/-- A one-node graph with no edges, whose only stop position is an
unreachable far-away tile. -/
def G2 : PathGraph :=
  { verts := {((0 : ℤ), (0 : ℤ))}, adj := fun _ => [] }

theorem reachAvoid_G2_eq {a b : Pos} (h : ReachAvoid G2 (∅ : Finset Pos) a b) :
    a = b := by
  induction h with
  | refl a => rfl
  | head hadj _ _ _ => exact absurd hadj (List.not_mem_nil _)

theorem dfs_find_path_empty_of_unreachable_witness :
    dfs_find_path G2 [((3 : ℤ), (3 : ℤ))] ((0 : ℤ), (0 : ℤ)) = [] :=
  dfs_find_path_empty_of_unreachable G2 [((3 : ℤ), (3 : ℤ))] ((0 : ℤ), (0 : ℤ))
    (by
      intro s hs h
      have h2 := reachAvoid_G2_eq h
      rw [List.mem_singleton] at hs
      subst hs
      exact absurd h2 (by decide))

/-! ## Trajectory generation (`make_enemy_path`, `interpolate`) -/

/-- A 2D vector.  pygame `Vector2` float components are modelled by exact
rationals; the counting claims proved below do not depend on rounding. -/
abbrev Vec2 : Type := ℚ × ℚ

/-- `linear(a, b, m, n)` from `tower/utils.py` (lines 106-117), applied
componentwise as pygame vector arithmetic does. -/
def linear (a b : Vec2) (m n : ℕ) : Vec2 :=
  (a.1 + m * (b.1 - a.1) / n, a.2 + m * (b.2 - a.2) / n)

/-- `itertools.pairwise`: consecutive pairs of a list. -/
def pairwiseL {α : Type} (l : List α) : List (α × α) :=
  l.zip l.tail

/-- `interpolate(iterable, n, fn=linear)` from `tower/utils.py` (lines
139-167): for each consecutive pair, the `n + 1` values `linear a b m n`
for `m = 0, ..., n`. -/
def interpolate (l : List Vec2) (n : ℕ) : List Vec2 :=
  (pairwiseL l).flatMap (fun q => (List.range (n + 1)).map (fun m => linear q.1 q.2 m n))

/-- `get_directions` (`tower/path_finging.py`, lines 148-167) pairs up the
centre vectors of consecutive path nodes; here it is taken at the list of
centre vectors directly. -/
def get_directions (centers : List Vec2) : List (Vec2 × Vec2) :=
  pairwiseL centers

/-- Dot product of two vectors. -/
def dot (a b : Vec2) : ℚ :=
  a.1 * b.1 + a.2 * b.2

/-- The chained interpolation
`chain.from_iterable(interpolate(t, speed) for t in get_directions(...))`
of `make_enemy_path` (`tower/path_finging.py`, lines 215-218): each
direction pair `t = (v1, v2)` is itself a two-element iterable, so
`interpolate(t, speed)` emits `speed + 1` points for its single pair. -/
def chainedInterp (centers : List Vec2) (speed : ℕ) : List Vec2 :=
  (get_directions centers).flatMap (fun t => interpolate [t.1, t.2] speed)

/-- `make_enemy_path` (`tower/path_finging.py`, lines 196-235): walk the
consecutive pairs of the chained interpolation; a coincident pair
(`v1 == v2`) is skipped outright (the Python guard that avoids normalising a
zero vector), every other pair yields one sample `(v2 + jv, 0, flipx)`.
The random jitter vector `jv` is a parameter.  `flipx` in the source is
`v1.normalize().dot((v2 - v1).normalize()) < 0`; since both normalisations
divide by positive magnitudes, its sign equals the sign of
`dot v1 (v2 - v1)`, which is what is used here (no square roots needed). -/
def make_enemy_path (centers : List Vec2) (jv : Vec2) (speed : ℕ) :
    List (Vec2 × ℚ × Bool) :=
  (pairwiseL (chainedInterp centers speed)).filterMap (fun q =>
    if q.1 = q.2 then none
    else some (q.2 + jv, 0, decide (dot q.1 (q.2 - q.1) < 0)))

theorem pairwiseL_length {α : Type} (l : List α) :
    (pairwiseL l).length = l.length - 1 := by
  cases l with
  | nil => simp [pairwiseL]
  | cons a t => simp [pairwiseL]

theorem chainedInterp_length (centers : List Vec2) (speed : ℕ) :
    (chainedInterp centers speed).length = (centers.length - 1) * (speed + 1) := by
  have h : ∀ dirs : List (Vec2 × Vec2),
      ((dirs.flatMap (fun t => interpolate [t.1, t.2] speed))).length =
        dirs.length * (speed + 1) := by
    intro dirs
    induction dirs with
    | nil => simp
    | cons d rest ih =>
      simp only [List.flatMap_cons, List.length_append, ih, List.length_cons]
      have h2 : (interpolate [d.1, d.2] speed).length = speed + 1 := by
        simp [interpolate, pairwiseL]
      rw [h2]
      ring
  unfold chainedInterp get_directions
  rw [h, pairwiseL_length]

theorem length_filterMap_lt_of_none {α β : Type} (f : α → Option β)
    (l : List α) (a : α) (ha : a ∈ l) (hnone : f a = none) :
    (l.filterMap f).length < l.length := by
  induction l with
  | nil => exact absurd ha (List.not_mem_nil a)
  | cons b t ih =>
    rcases List.mem_cons.mp ha with h | h
    · subst h
      rw [List.filterMap_cons, hnone]
      exact Nat.lt_succ_of_le (List.length_filterMap_le f t)
    · rw [List.filterMap_cons]
      cases hfb : f b with
      | none => exact Nat.lt_succ_of_lt (ih h)
      | some c =>
        simp only [List.length_cons]
        exact Nat.succ_lt_succ (ih h)

/-- C3: For every path of `N` waypoints and every steps-per-segment `S`, the
trajectory produced by `make_enemy_path` has length at most `(N-1)*(S+1)`,
and is strictly shorter whenever any consecutive pair of interpolated points
coincides (each coincident pair is skipped and emits no sample; the skip is
what prevents normalising a zero vector, so the model is total there). -/
theorem make_enemy_path_length_le (centers : List Vec2) (jv : Vec2) (speed : ℕ) :
    (make_enemy_path centers jv speed).length ≤
      (centers.length - 1) * (speed + 1) ∧
    ((∃ q ∈ pairwiseL (chainedInterp centers speed), q.1 = q.2) →
      (make_enemy_path centers jv speed).length <
        (centers.length - 1) * (speed + 1)) := by
  have hpairs : (pairwiseL (chainedInterp centers speed)).length =
      (centers.length - 1) * (speed + 1) - 1 := by
    rw [pairwiseL_length, chainedInterp_length]
  constructor
  · calc (make_enemy_path centers jv speed).length
        ≤ (pairwiseL (chainedInterp centers speed)).length :=
          List.length_filterMap_le _ _
      _ = (centers.length - 1) * (speed + 1) - 1 := hpairs
      _ ≤ (centers.length - 1) * (speed + 1) := Nat.sub_le _ _
  · rintro ⟨q, hq, heq⟩
    have hlt : (make_enemy_path centers jv speed).length <
        (pairwiseL (chainedInterp centers speed)).length := by
      refine length_filterMap_lt_of_none _ _ q hq ?_
      rw [if_pos heq]
    calc (make_enemy_path centers jv speed).length
        < (pairwiseL (chainedInterp centers speed)).length := hlt
      _ = (centers.length - 1) * (speed + 1) - 1 := hpairs
      _ ≤ (centers.length - 1) * (speed + 1) := Nat.sub_le _ _

/-! ## Turrets (`Turret.shoot`) and turret-fire resolution -/

/-- The cooldown state of a `Turret` (`tower/sprites.py`, lines 393-423). -/
structure Turret where
  cooldown : ℕ
  cooldown_remaining : ℕ
deriving DecidableEq

/-- `Turret.shoot` (`tower/sprites.py`, lines 415-423): if the turret is
off-cooldown, reset `cooldown_remaining` to `cooldown`, play the fire cue and
return `True`; otherwise return `False`.  The returned boolean is the second
component; the internal `self.play()` happens exactly when it is `true`. -/
def Turret.shoot (t : Turret) : Turret × Bool :=
  if t.cooldown_remaining = 0 then
    ({ t with cooldown_remaining := t.cooldown }, true)
  else (t, false)

/-- One turret's treatment in collision rule 1 (`tower/game.py`, lines
1063-1074): `if turret.shoot() and turret not in self.sprite_manager.sprites`.
Python's `and` evaluates `turret.shoot()` first, unconditionally, so the
cooldown reset (and shoot's internal cue) happen regardless of the selection
check; only the call-site `turret.play()` and the projectile spawn are gated
on the turret not being currently selected.  Returns the updated turret and
whether a projectile is spawned. -/
def resolveTurretFire (t : Turret) (selected : Bool) : Turret × Bool :=
  ((t.shoot).1, (t.shoot).2 && !selected)

/-- C4, counterexample: a turret that is still selected (not yet placed) and
off-cooldown, with an enemy in its sight, does NOT keep its
`cooldown_remaining` unchanged: `turret.shoot()` runs before the selection
test and resets the cooldown to 30; no projectile is spawned. -/
theorem resolveTurretFire_selected_resets_cooldown :
    (resolveTurretFire ⟨30, 0⟩ true).2 = false ∧
    (resolveTurretFire ⟨30, 0⟩ true).1.cooldown_remaining = 30 ∧
    ¬ (resolveTurretFire ⟨30, 0⟩ true).1.cooldown_remaining =
        (Turret.mk 30 0).cooldown_remaining := by
  decide

/-- C4, amended: during collision resolution, a projectile is spawned (and the
call-site cue played) iff the turret is off-cooldown AND not currently in the
selected/not-yet-placed state; a selected turret never spawns a projectile;
but `turret.shoot()` is evaluated unconditionally, so an off-cooldown
turret's cooldown is reset (to `cooldown`) even while selected, and an
on-cooldown turret's `cooldown_remaining` is left unchanged. -/
theorem resolveTurretFire_spec (t : Turret) (selected : Bool) :
    ((resolveTurretFire t selected).2 =
      (decide (t.cooldown_remaining = 0) && !selected)) ∧
    (resolveTurretFire t true).2 = false ∧
    ((resolveTurretFire t selected).1.cooldown_remaining =
      if t.cooldown_remaining = 0 then t.cooldown else t.cooldown_remaining) := by
  unfold resolveTurretFire Turret.shoot
  by_cases h : t.cooldown_remaining = 0 <;> simp [h]

/-! ## `GameModeElimination` (`tower/game.py`, lines 129-203) -/

/-- `MAX_ESCAPED` from `tower/__init__.py`. -/
def MAX_ESCAPED : ℕ := 20

/-- `INTENSITY_FREQUENCY` from `tower/__init__.py`. -/
def INTENSITY_FREQUENCY : ℕ := 20

/-- The state of `GameModeElimination`.  The `wave` attribute in the source
is a Python generator whose yields are randomized pulse timings; the only
structural property the claims mention is which intensity the current
generator was built with (`create_wave(intensity)`), recorded here as
`wave_intensity`.  The value drawn from the generator on a `next()` call is
passed in as a parameter. -/
structure EliminationMode where
  killed : ℕ
  escaped : ℕ
  intensity : ℕ
  max_escaped : ℕ
  max_defenses : ℕ
  intensity_frequency : ℕ
  wave_intensity : ℕ
deriving DecidableEq

namespace EliminationMode

/-- `GameModeElimination.create` (`tower/game.py`, lines 151-162). -/
def create : EliminationMode :=
  { killed := 0, escaped := 0, intensity := 1, max_defenses := 1,
    max_escaped := MAX_ESCAPED, intensity_frequency := INTENSITY_FREQUENCY,
    wave_intensity := 1 }

/-- `GameModeElimination.has_lost` (`tower/game.py`, lines 164-167):
`escaped > max_escaped * intensity`. -/
def has_lost (s : EliminationMode) : Bool :=
  decide (s.escaped > s.max_escaped * s.intensity)

/-- `GameModeElimination.has_won` (`tower/game.py`, lines 169-171). -/
def has_won (_s : EliminationMode) : Bool :=
  false

/-- `GameModeElimination.reset` (`tower/game.py`, lines 173-178): the wave is
rebuilt with the freshly reset intensity 1. -/
def reset (s : EliminationMode) : EliminationMode :=
  { s with
    killed := 0, escaped := 0, intensity := 1, max_defenses := 1,
    wave_intensity := 1 }

/-- `GameModeElimination.can_place_turret` (`tower/game.py`, lines 192-193):
the source compares `existing` against `intensity`, not `max_defenses`. -/
def can_place_turret (s : EliminationMode) (existing : ℕ) : Bool :=
  decide (s.intensity > existing)

/-- `GameModeElimination.next` (`tower/game.py`, lines 195-203): draw `v` from
the wave generator, then increment `intensity` and `max_defenses` and rebuild
the wave exactly when `killed` EQUALS `intensity * intensity_frequency`. -/
def next (s : EliminationMode) (v : ℕ) : ℕ × EliminationMode :=
  if s.killed = s.intensity * s.intensity_frequency then
    (v,
      { s with
        intensity := s.intensity + 1, max_defenses := s.max_defenses + 1,
        wave_intensity := s.intensity + 1 })
  else (v, s)

end EliminationMode

/-- C6, counterexample: when the killed counter jumps past the threshold
(here `killed = 21` with `intensity * intensity_frequency = 20`, as happens
when two enemies die in one tick), the next `next()` call does NOT increment
intensity or `max_defenses` and does not rebuild the wave: the source tests
for equality only. -/
theorem elimination_next_misses_jumped_threshold :
    ((EliminationMode.next
        { killed := 21, escaped := 0, intensity := 1, max_escaped := 20,
          max_defenses := 1, intensity_frequency := 20, wave_intensity := 1 }
        0).2 =
      { killed := 21, escaped := 0, intensity := 1, max_escaped := 20,
        max_defenses := 1, intensity_frequency := 20, wave_intensity := 1 }) ∧
    ¬ ((EliminationMode.next
        { killed := 21, escaped := 0, intensity := 1, max_escaped := 20,
          max_defenses := 1, intensity_frequency := 20, wave_intensity := 1 }
        0).2.intensity = 2) := by
  decide

/-- C6, amended: a `next()` call increments `intensity` by exactly 1,
increments `max_defenses` by exactly 1 and rebuilds the wave generator for
the new intensity iff the killed counter EQUALS `intensity *
intensity_frequency` at the moment of the call; when `killed` has skipped
past the threshold without equality holding at a call (possible because a
single tick's collision resolution can add more than 1 to `killed`), the
state is left entirely unchanged. -/
theorem elimination_next_spec (s : EliminationMode) (v : ℕ)
    (hthr : s.killed = s.intensity * s.intensity_frequency) :
    ((EliminationMode.next s v).2.intensity = s.intensity + 1 ∧
      (EliminationMode.next s v).2.max_defenses = s.max_defenses + 1 ∧
      (EliminationMode.next s v).2.wave_intensity = s.intensity + 1 ∧
      (EliminationMode.next s v).1 = v) ∧
    (∀ s2 : EliminationMode, s2.killed ≠ s2.intensity * s2.intensity_frequency →
      (EliminationMode.next s2 v).2 = s2 ∧ (EliminationMode.next s2 v).1 = v) := by
  constructor
  · rw [EliminationMode.next, if_pos hthr]
    exact ⟨rfl, rfl, rfl, rfl⟩
  · intro s2 h2
    rw [EliminationMode.next, if_neg h2]
    exact ⟨rfl, rfl⟩

theorem elimination_next_spec_witness :
    ((EliminationMode.next
        { killed := 20, escaped := 0, intensity := 1, max_escaped := 20,
          max_defenses := 1, intensity_frequency := 20, wave_intensity := 1 }
        3).2.intensity = 2 ∧
      (EliminationMode.next
        { killed := 20, escaped := 0, intensity := 1, max_escaped := 20,
          max_defenses := 1, intensity_frequency := 20, wave_intensity := 1 }
        3).2.max_defenses = 2 ∧
      (EliminationMode.next
        { killed := 20, escaped := 0, intensity := 1, max_escaped := 20,
          max_defenses := 1, intensity_frequency := 20, wave_intensity := 1 }
        3).2.wave_intensity = 2 ∧
      (EliminationMode.next
        { killed := 20, escaped := 0, intensity := 1, max_escaped := 20,
          max_defenses := 1, intensity_frequency := 20, wave_intensity := 1 }
        3).1 = 3) ∧
    (∀ s2 : EliminationMode, s2.killed ≠ s2.intensity * s2.intensity_frequency →
      (EliminationMode.next s2 3).2 = s2 ∧ (EliminationMode.next s2 3).1 = 3) :=
  elimination_next_spec
    { killed := 20, escaped := 0, intensity := 1, max_escaped := 20,
      max_defenses := 1, intensity_frequency := 20, wave_intensity := 1 }
    3 (by decide)

/-- C7: `has_lost()` is true iff the escaped counter strictly exceeds
`max_escaped * intensity`; with `max_escaped = 20` and `intensity = 1` it is
false at `escaped = 20` and true at `escaped = 21`; `has_won()` is always
false. -/
theorem elimination_has_lost_spec (s : EliminationMode) :
    (s.has_lost = true ↔ s.max_escaped * s.intensity < s.escaped) ∧
    s.has_won = false ∧
    ({ EliminationMode.create with escaped := 20 }.has_lost = false) ∧
    ({ EliminationMode.create with escaped := 21 }.has_lost = true) := by
  refine ⟨?_, rfl, by decide, by decide⟩
  simp [EliminationMode.has_lost]

/-- C9: `intensity = max_defenses` holds after `create` and after `reset`, is
preserved by every `next()` call, and under it `can_place_turret existing`
(which the source computes as `existing < intensity`) returns true exactly
when `existing < max_defenses`. -/
theorem elimination_intensity_eq_max_defenses (s : EliminationMode) (v : ℕ)
    (existing : ℕ) (hinv : s.intensity = s.max_defenses) :
    EliminationMode.create.intensity = EliminationMode.create.max_defenses ∧
    (s.reset).intensity = (s.reset).max_defenses ∧
    (EliminationMode.next s v).2.intensity =
      (EliminationMode.next s v).2.max_defenses ∧
    (s.can_place_turret existing = true ↔ existing < s.max_defenses) := by
  refine ⟨rfl, rfl, ?_, ?_⟩
  · rw [EliminationMode.next]
    split
    · simp [hinv]
    · exact hinv
  · simp [EliminationMode.can_place_turret, hinv]

theorem elimination_intensity_eq_max_defenses_witness :
    EliminationMode.create.intensity = EliminationMode.create.max_defenses ∧
    (EliminationMode.create.reset).intensity =
      (EliminationMode.create.reset).max_defenses ∧
    (EliminationMode.next EliminationMode.create 0).2.intensity =
      (EliminationMode.next EliminationMode.create 0).2.max_defenses ∧
    (EliminationMode.create.can_place_turret 0 = true ↔
      0 < EliminationMode.create.max_defenses) :=
  elimination_intensity_eq_max_defenses EliminationMode.create 0 0 (by decide)

/-! ## Animation and sprite states (`tower/sprites.py`, lines 31-69) -/

/-- `AnimationState`. -/
inductive AnimationState where
  | stopped
  | walking
  | dying
  | exploding
deriving DecidableEq

/-- `SpriteState`. -/
inductive SpriteState where
  | unknown
  | moving
  | stopped
deriving DecidableEq

/-! ## Collision resolution (`GameEdit.handle_collision`, `tower/game.py`,
lines 1047-1121)

The per-pixel mask overlap tests are external geometry; they enter the model
as arbitrary boolean relations `sightHit` (enemy id vs turret list position)
and `projHit` (enemy id vs projectile id).  Projectile identity (Python
object identity) is modelled by a numeric id drawn from a counter `nextPid`
that is strictly above every live projectile's id. -/

/-- An enemy as rule 2 and rule 3 of `handle_collision` see it. -/
structure CEnemy where
  eid : ℕ
  animation_state : AnimationState
  state : SpriteState
  alive : Bool
deriving DecidableEq

/-- A projectile as `handle_collision` sees it. -/
structure CProjectile where
  pid : ℕ
  animation_state : AnimationState
deriving DecidableEq

/-- The slice of `GameEdit` state that `handle_collision` reads and writes. -/
structure CollisionInput where
  enemies : List CEnemy
  turrets : List (Turret × Bool)
  projectiles : List CProjectile
  nextPid : ℕ
  killed : ℕ
  escaped : ℕ
deriving DecidableEq

/-- The state after `handle_collision`, with two ghost fields recording what
rule 1 spawned and which projectile group rule 2 collided against. -/
structure CollisionResult where
  enemies : List CEnemy
  turrets : List (Turret × Bool)
  projectiles : List CProjectile
  spawned : List CProjectile
  rule2Tested : List CProjectile
  nextPid : ℕ
  killed : ℕ
  escaped : ℕ
deriving DecidableEq

/-- The inner `for turret_sight in turret_sights` loop of rule 1
(`tower/game.py`, lines 1063-1074) for one enemy: every turret whose sight
overlaps the enemy gets `turret.shoot()` evaluated (mutating it), and a fresh
projectile is spawned when the shot fired and the turret is not selected.
Returns the updated turret list, the projectiles spawned, and the updated
fresh-id counter. -/
def fireTurrets (sightHit : ℕ → ℕ → Bool) (eid : ℕ) :
    List (Turret × Bool) → ℕ → ℕ → List (Turret × Bool) × List CProjectile × ℕ
  | [], _, nextPid => ([], [], nextPid)
  | (t, sel) :: ts, i, nextPid =>
    if sightHit eid i then
      if (resolveTurretFire t sel).2 then
        ((t.shoot.1, sel) :: (fireTurrets sightHit eid ts (i + 1) (nextPid + 1)).1,
         ⟨nextPid, AnimationState.stopped⟩ ::
           (fireTurrets sightHit eid ts (i + 1) (nextPid + 1)).2.1,
         (fireTurrets sightHit eid ts (i + 1) (nextPid + 1)).2.2)
      else
        ((t.shoot.1, sel) :: (fireTurrets sightHit eid ts (i + 1) nextPid).1,
         (fireTurrets sightHit eid ts (i + 1) nextPid).2.1,
         (fireTurrets sightHit eid ts (i + 1) nextPid).2.2)
    else
      ((t, sel) :: (fireTurrets sightHit eid ts (i + 1) nextPid).1,
       (fireTurrets sightHit eid ts (i + 1) nextPid).2.1,
       (fireTurrets sightHit eid ts (i + 1) nextPid).2.2)

/-- Rule 1 (`tower/game.py`, lines 1057-1074): the outer loop over enemies
with an overlapping sight.  Returns the updated turrets, all projectiles
spawned this tick (in order), and the updated fresh-id counter. -/
def rule1 (sightHit : ℕ → ℕ → Bool) :
    List CEnemy → List (Turret × Bool) → ℕ → List (Turret × Bool) × List CProjectile × ℕ
  | [], ts, nextPid => (ts, [], nextPid)
  | e :: es, ts, nextPid =>
    ((rule1 sightHit es (fireTurrets sightHit e.eid ts 0 nextPid).1
        (fireTurrets sightHit e.eid ts 0 nextPid).2.2).1,
     (fireTurrets sightHit e.eid ts 0 nextPid).2.1 ++
       (rule1 sightHit es (fireTurrets sightHit e.eid ts 0 nextPid).1
         (fireTurrets sightHit e.eid ts 0 nextPid).2.2).2.1,
     (rule1 sightHit es (fireTurrets sightHit e.eid ts 0 nextPid).1
       (fireTurrets sightHit e.eid ts 0 nextPid).2.2).2.2)

/-- Rule 2 (`tower/game.py`, lines 1094-1110): for every enemy overlapping a
projectile of the captured projectile group, unless the enemy is already
dying: mark it dying, bump the kill counter, and mark every overlapping
projectile of that group exploding. -/
def rule2 (projHit : ℕ → ℕ → Bool) :
    List CEnemy → List CProjectile → ℕ → List CEnemy × List CProjectile × ℕ
  | [], ps, killed => ([], ps, killed)
  | e :: es, ps, killed =>
    if ps.any (fun p => projHit e.eid p.pid) then
      if e.animation_state = AnimationState.dying then
        (e :: (rule2 projHit es ps killed).1,
         (rule2 projHit es ps killed).2.1, (rule2 projHit es ps killed).2.2)
      else
        ({ e with animation_state := AnimationState.dying } ::
          (rule2 projHit es
            (ps.map (fun p => if projHit e.eid p.pid then
              { p with animation_state := AnimationState.exploding } else p))
            (killed + 1)).1,
         (rule2 projHit es
           (ps.map (fun p => if projHit e.eid p.pid then
             { p with animation_state := AnimationState.exploding } else p))
           (killed + 1)).2.1,
         (rule2 projHit es
           (ps.map (fun p => if projHit e.eid p.pid then
             { p with animation_state := AnimationState.exploding } else p))
           (killed + 1)).2.2)
    else
      (e :: (rule2 projHit es ps killed).1,
       (rule2 projHit es ps killed).2.1, (rule2 projHit es ps killed).2.2)

/-- Rule 3, the escape check (`tower/game.py`, lines 1111-1121): every enemy
whose motion state is `stopped` bumps the escape counter and is killed
(removed from the registry), regardless of its animation state. -/
def rule3 : List CEnemy → ℕ → List CEnemy × ℕ
  | [], escaped => ([], escaped)
  | e :: es, escaped =>
    if e.state = SpriteState.stopped then
      ({ e with alive := false } :: (rule3 es (escaped + 1)).1,
       (rule3 es (escaped + 1)).2)
    else
      (e :: (rule3 es escaped).1, (rule3 es escaped).2)

/-- `GameEdit.handle_collision` (`tower/game.py`, lines 1047-1121): the
projectile group is captured before rule 1 runs; rule 1 fires turrets and
spawns projectiles; rule 2 collides enemies against the CAPTURED projectile
group; rule 3 counts and removes stopped enemies. -/
def handle_collision (sightHit projHit : ℕ → ℕ → Bool) (st : CollisionInput) :
    CollisionResult :=
  { enemies := (rule3 (rule2 projHit st.enemies st.projectiles st.killed).1
      st.escaped).1,
    turrets := (rule1 sightHit st.enemies st.turrets st.nextPid).1,
    projectiles := (rule2 projHit st.enemies st.projectiles st.killed).2.1 ++
      (rule1 sightHit st.enemies st.turrets st.nextPid).2.1,
    spawned := (rule1 sightHit st.enemies st.turrets st.nextPid).2.1,
    rule2Tested := st.projectiles,
    nextPid := (rule1 sightHit st.enemies st.turrets st.nextPid).2.2,
    killed := (rule2 projHit st.enemies st.projectiles st.killed).2.2,
    escaped := (rule3 (rule2 projHit st.enemies st.projectiles st.killed).1
      st.escaped).2 }

theorem fireTurrets_spawned_ge (sightHit : ℕ → ℕ → Bool) (eid : ℕ) :
    ∀ (ts : List (Turret × Bool)) (i nextPid : ℕ),
      (∀ q ∈ (fireTurrets sightHit eid ts i nextPid).2.1, nextPid ≤ q.pid) ∧
      nextPid ≤ (fireTurrets sightHit eid ts i nextPid).2.2 := by
  intro ts
  induction ts with
  | nil => intro i nextPid; simp [fireTurrets]
  | cons tp rest ih =>
    intro i nextPid
    obtain ⟨t, sel⟩ := tp
    rw [fireTurrets]
    by_cases h1 : sightHit eid i
    · rw [if_pos h1]
      by_cases h2 : (resolveTurretFire t sel).2
      · rw [if_pos h2]
        refine ⟨?_, le_trans (Nat.le_succ _) (ih (i + 1) (nextPid + 1)).2⟩
        intro q hq
        rcases List.mem_cons.mp hq with h | h
        · subst h; exact le_refl _
        · exact le_trans (Nat.le_succ _) ((ih (i + 1) (nextPid + 1)).1 q h)
      · rw [if_neg h2]
        exact ⟨(ih (i + 1) nextPid).1, (ih (i + 1) nextPid).2⟩
    · rw [if_neg h1]
      exact ⟨(ih (i + 1) nextPid).1, (ih (i + 1) nextPid).2⟩

theorem rule1_spawned_ge (sightHit : ℕ → ℕ → Bool) :
    ∀ (es : List CEnemy) (ts : List (Turret × Bool)) (nextPid : ℕ),
      ∀ q ∈ (rule1 sightHit es ts nextPid).2.1, nextPid ≤ q.pid := by
  intro es
  induction es with
  | nil => intro ts nextPid; simp [rule1]
  | cons e rest ih =>
    intro ts nextPid q hq
    rw [rule1] at hq
    rcases List.mem_append.mp hq with h | h
    · exact (fireTurrets_spawned_ge sightHit e.eid ts 0 nextPid).1 q h
    · exact le_trans (fireTurrets_spawned_ge sightHit e.eid ts 0 nextPid).2
        (ih _ _ q h)

/-- C5: within a single `handle_collision` call, the projectile group that
rule 2 (enemy-hit resolution) collides against is exactly the group captured
before rule 1 ran, and no projectile spawned by rule 1 of that same tick is a
member of it: rule-1 spawns carry ids at or above the fresh-id counter,
strictly above every captured projectile's id.  Fire-to-hit latency is
therefore at least one tick. -/
theorem handle_collision_one_tick_latency (sightHit projHit : ℕ → ℕ → Bool)
    (st : CollisionInput)
    (hfresh : ∀ p ∈ st.projectiles, p.pid < st.nextPid) :
    (handle_collision sightHit projHit st).rule2Tested = st.projectiles ∧
    ∀ q ∈ (handle_collision sightHit projHit st).spawned,
      ∀ p ∈ (handle_collision sightHit projHit st).rule2Tested, q.pid ≠ p.pid := by
  refine ⟨rfl, ?_⟩
  intro q hq p hp
  have h1 : st.nextPid ≤ q.pid :=
    rule1_spawned_ge sightHit st.enemies st.turrets st.nextPid q hq
  have h2 : p.pid < st.nextPid := hfresh p hp
  omega

/-- A one-enemy, one-turret, one-live-projectile state for the collision
theorems. -/
def collisionSt : CollisionInput :=
  { enemies := [⟨0, AnimationState.walking, SpriteState.moving, true⟩],
    turrets := [(⟨30, 0⟩, false)],
    projectiles := [⟨0, AnimationState.stopped⟩],
    nextPid := 1, killed := 0, escaped := 0 }

theorem handle_collision_one_tick_latency_witness :
    (handle_collision (fun _ _ => true) (fun _ _ => true) collisionSt).rule2Tested =
      collisionSt.projectiles ∧
    ∀ q ∈ (handle_collision (fun _ _ => true) (fun _ _ => true) collisionSt).spawned,
      ∀ p ∈ (handle_collision (fun _ _ => true) (fun _ _ => true)
          collisionSt).rule2Tested, q.pid ≠ p.pid :=
  handle_collision_one_tick_latency (fun _ _ => true) (fun _ _ => true)
    collisionSt (by decide)

/-! ## `Enemy.update` (`tower/sprites.py`, lines 341-390) -/

/-- An `Enemy` sprite as its own `update` method sees it.  The animation roll
dictionary built by `create_enemy` has an infinite cycling roll for
`walking` (modelled by the total function `walkFrame` and a cursor), a finite
roll for `dying` (`dyingFrames`, the remaining frames), and `None` for the
other states.  `alive` is cleared by `self.kill()`. -/
structure EnemyS where
  center : Vec2
  index : ℕ
  flipped_x : Bool
  sprite_offset : Vec2
  animation_state : AnimationState
  state : SpriteState
  path : Option (List (Vec2 × ℚ × Bool))
  walkFrame : ℕ → ℕ
  walkCursor : ℕ
  dyingFrames : List ℕ
  alive : Bool

/-- `Sprite.animate` (`tower/sprites.py`, lines 248-276) specialised to the
enemy roll dictionary: a walking roll never exhausts; an exhausted dying roll
kills the sprite (`state_kills_sprite`) and resets the animation state to
`stopped`; the rolls of the other states are `None`, so nothing happens.
`set_sprite_index` re-centres the new rect on the old centre, so the centre
is untouched. -/
def EnemyS.animate (e : EnemyS) : EnemyS :=
  match e.animation_state with
  | AnimationState.walking =>
    if e.walkFrame e.walkCursor ≠ e.index then
      { e with walkCursor := e.walkCursor + 1, index := e.walkFrame e.walkCursor }
    else { e with walkCursor := e.walkCursor + 1 }
  | AnimationState.dying =>
    match e.dyingFrames with
    | [] => { e with alive := false, animation_state := AnimationState.stopped }
    | i :: rest =>
      if i ≠ e.index then { e with dyingFrames := rest, index := i }
      else { e with dyingFrames := rest }
  | AnimationState.stopped => e
  | AnimationState.exploding => e

/-- `Enemy.update` (`tower/sprites.py`, lines 355-390): animate first; with a
path, return early if (still) dying, otherwise set the motion state to
`moving` and consume the next trajectory sample — an exhausted trajectory
(`StopIteration`) sets the state to `stopped` instead; a change of the flip
flag recomputes the sprite offset from the mask centroids before and after
the flip (the centroid of a mask is external pixel geometry, passed in as
the function `centroid index flipped`). -/
def EnemyS.update (centroid : ℕ → Bool → Vec2) (e0 : EnemyS) : EnemyS :=
  match e0.animate.path with
  | none => e0.animate
  | some samples =>
    if e0.animate.animation_state = AnimationState.dying then e0.animate
    else
      match samples with
      | [] => { e0.animate with state := SpriteState.stopped }
      | (pos, _ang, flipx) :: rest =>
        if flipx ≠ e0.animate.flipped_x then
          if flipx then
            { e0.animate with
              state := SpriteState.moving, path := some rest, flipped_x := flipx,
              sprite_offset := centroid e0.animate.index flipx -
                centroid e0.animate.index e0.animate.flipped_x,
              center := pos - (centroid e0.animate.index flipx -
                centroid e0.animate.index e0.animate.flipped_x) }
          else
            { e0.animate with
              state := SpriteState.moving, path := some rest, flipped_x := flipx,
              sprite_offset := centroid e0.animate.index flipx -
                centroid e0.animate.index e0.animate.flipped_x,
              center := pos }
        else
          if flipx then
            { e0.animate with
              state := SpriteState.moving, path := some rest,
              center := pos - e0.animate.sprite_offset }
          else
            { e0.animate with
              state := SpriteState.moving, path := some rest, center := pos }

/-- C10, amended: while the dying animation roll still yields frames, an
enemy whose `animation_state` is `dying` is frozen by `update()`: its
position is unchanged, its trajectory is not consumed, its motion state is
untouched (in particular it does not become `stopped` through `update`), and
it stays dying.  (On the single update at which the dying roll exhausts, the
sprite is killed and the guard no longer fires; and an enemy that stopped
before being hit can still be counted escaped, see the counterexample.) -/
theorem enemy_update_dying_frozen (centroid : ℕ → Bool → Vec2) (e : EnemyS)
    (hdying : e.animation_state = AnimationState.dying)
    (hroll : e.dyingFrames ≠ []) :
    (EnemyS.update centroid e).center = e.center ∧
    (EnemyS.update centroid e).path = e.path ∧
    (EnemyS.update centroid e).state = e.state ∧
    (EnemyS.update centroid e).animation_state = AnimationState.dying ∧
    (EnemyS.update centroid e).alive = e.alive := by
  cases hd : e.dyingFrames with
  | nil => exact absurd hd hroll
  | cons i rest =>
    have hanim : e.animate = { e with dyingFrames := rest, index := i } ∨
        e.animate = { e with dyingFrames := rest } := by
      simp only [EnemyS.animate, hdying, hd]
      by_cases hi : i ≠ e.index
      · left; rw [if_pos hi]
      · right; rw [if_neg hi]
    rcases hanim with h | h <;>
    · simp only [EnemyS.update, h]
      cases hp : e.path with
      | none => simp [hdying]
      | some samples => simp [hdying]

/-- A concrete dying enemy whose dying roll still has frames and whose
trajectory still has samples. -/
def enemyW : EnemyS :=
  { center := ((1 : ℚ), (1 : ℚ)), index := 5, flipped_x := false,
    sprite_offset := ((0 : ℚ), (0 : ℚ)),
    animation_state := AnimationState.dying, state := SpriteState.moving,
    path := some [(((9 : ℚ), (9 : ℚ)), (0 : ℚ), false)],
    walkFrame := fun _ => 0, walkCursor := 0, dyingFrames := [6, 7],
    alive := true }

theorem enemy_update_dying_frozen_witness :
    (EnemyS.update (fun _ _ => ((0 : ℚ), (0 : ℚ))) enemyW).center = enemyW.center ∧
    (EnemyS.update (fun _ _ => ((0 : ℚ), (0 : ℚ))) enemyW).path = enemyW.path ∧
    (EnemyS.update (fun _ _ => ((0 : ℚ), (0 : ℚ))) enemyW).state = enemyW.state ∧
    (EnemyS.update (fun _ _ => ((0 : ℚ), (0 : ℚ))) enemyW).animation_state =
      AnimationState.dying ∧
    (EnemyS.update (fun _ _ => ((0 : ℚ), (0 : ℚ))) enemyW).alive = enemyW.alive :=
  enemy_update_dying_frozen (fun _ _ => ((0 : ℚ), (0 : ℚ))) enemyW rfl (by decide)

/-- An enemy that exhausted its trajectory this tick (motion state `stopped`,
still walking, still alive) while a projectile overlaps it. -/
def enemyStoppedSt : CollisionInput :=
  { enemies := [⟨0, AnimationState.walking, SpriteState.stopped, true⟩],
    turrets := [], projectiles := [⟨0, AnimationState.stopped⟩],
    nextPid := 1, killed := 0, escaped := 0 }

/-- C10, counterexample: an enemy whose trajectory ran out (motion state
`stopped`) and which is hit by a projectile in the same tick is counted BOTH
as killed (rule 2 marks it dying and bumps `killed`) and as escaped (rule 3
tests only the motion state): with a single enemy present, one
`handle_collision` call bumps both counters, refuting "no enemy is counted
both as killed and as escaped". -/
theorem stopped_enemy_counted_killed_and_escaped :
    (handle_collision (fun _ _ => false) (fun _ _ => true) enemyStoppedSt).killed =
      enemyStoppedSt.killed + 1 ∧
    (handle_collision (fun _ _ => false) (fun _ _ => true) enemyStoppedSt).escaped =
      enemyStoppedSt.escaped + 1 ∧
    enemyStoppedSt.enemies.length = 1 ∧
    (handle_collision (fun _ _ => false) (fun _ _ => true) enemyStoppedSt).enemies =
      [⟨0, AnimationState.dying, SpriteState.stopped, false⟩] := by
  decide

/-! ## Level loading (`GameEdit.open_level` / `load_level`, `tower/game.py`,
lines 935-957 and 1269-1273, with `create_background_tile_map`, lines
241-255)

`json.loads` output is modelled by a `Json` tree (`Option Json` at the
`open_level` boundary: `none` is a parse failure, raised before any
mutation).  The level tile map and the sprite layer registry are the two
pieces of previously loaded state the claim names.  `mode.reset()` and
`draw_background()` touch neither; `make_hud()` DOES add a `HUDText` sprite
to `self.layers` before the shrub loop whenever `show_hud` is true and the
game state is `game_playing` — that condition is the `hud` flag threaded
below.  Background sprite construction needs, per cell, an `index` string
and an `orientation` number (a missing key raises `KeyError`, a missing row
or cell raises `IndexError`; which sprite ids exist in the image table is
external asset data and is not modelled). -/

/-- `TILES_Y` from `tower/__init__.py`. -/
def TILES_Y : ℕ := 16

/-- `TILES_X` from `tower/__init__.py`. -/
def TILES_X : ℕ := 24

/-- A parsed JSON document. -/
inductive Json where
  | null : Json
  | num : ℤ → Json
  | str : String → Json
  | arr : List Json → Json
  | obj : List (String × Json) → Json

def bgKey : String := "background"

def shrubsKey : String := "shrubs"

def indexKey : String := "index"

def orientationKey : String := "orientation"

def positionKey : String := "position"

/-- Dictionary lookup (`data[key]`); `none` is Python's `KeyError` (or
`TypeError` when the value is not a dict). -/
def Json.get? : Json → String → Option Json
  | Json.obj fields, k => (fields.find? (fun f => decide (f.1 = k))).map (fun f => f.2)
  | _, _ => none

/-- View as a JSON array; `none` is Python's `TypeError`/`IndexError` source. -/
def Json.asArr? : Json → Option (List Json)
  | Json.arr xs => some xs
  | _ => none

/-- A background tile as stored in the level grid. -/
structure BgTile where
  index : String
  orientation : ℤ
deriving DecidableEq

/-- A placed shrub sprite. -/
structure ShrubS where
  index : String
  pos : ℤ × ℤ
  orientation : ℤ
deriving DecidableEq

/-- A sprite in the layer registry: a loaded shrub, the HUD text `make_hud`
creates, or any other sprite (enemy, turret, ...) identified by a tag. -/
inductive LSprite where
  | shrub : ShrubS → LSprite
  | hud : LSprite
  | other : ℕ → LSprite
deriving DecidableEq

/-- The errors a level load can surface. -/
inductive LoadErr where
  | parseError
  | missingKey
  | badBackground
  | badShrubs
  | badShrub
deriving DecidableEq

/-- The previously loaded game state named by the claim: the level tile map
and the sprite layer registry. -/
structure EditorState where
  level : Option (List (List BgTile))
  layers : List LSprite
deriving DecidableEq

/-- What `make_hud()` (`tower/game.py`, lines 973-991) contributes to the
layer registry: an `HUDText` sprite when `show_hud` holds and the game state
is `game_playing` (the combined condition is the `hud` flag), nothing
otherwise. -/
def hudSprites (hud : Bool) : List LSprite :=
  if hud then [LSprite.hud] else []

/-- One cell `{index, orientation}` of the raw background grid. -/
def decodeTile (j : Json) : Option BgTile :=
  match j.get? indexKey, j.get? orientationKey with
  | some (Json.str s), some (Json.num n) => some ⟨s, n⟩
  | _, _ => none

/-- `create_background_tile_map(raw_tile_map)` (`tower/game.py`, lines
241-255): walk all `TILES_Y × TILES_X` grid positions and build a
`Background` tile from each raw cell; any missing row, missing cell or
malformed cell raises (`none`). -/
def create_background_tile_map (bg : Json) : Option (List (List BgTile)) :=
  match bg.asArr? with
  | none => none
  | some rows =>
    (List.range TILES_Y).mapM (fun y =>
      match rows[y]? with
      | none => none
      | some rowJ =>
        match rowJ.asArr? with
        | none => none
        | some cells =>
          (List.range TILES_X).mapM (fun x =>
            match cells[x]? with
            | none => none
            | some c => decodeTile c))

/-- One raw shrub `{index, position, orientation}`; the key lookups are
evaluated as the `create_shrub` call arguments, so a malformed entry raises
before any sprite is created. -/
def decodeShrub (j : Json) : Option ShrubS :=
  match j.get? indexKey, j.get? positionKey, j.get? orientationKey with
  | some (Json.str s), some (Json.arr [Json.num x, Json.num y]),
      some (Json.num o) => some ⟨s, (x, y), o⟩
  | _, _, _ => none

/-- Decode a whole raw shrub list, failing on the first malformed entry. -/
def decodeShrubs : List Json → Option (List ShrubS)
  | [] => some []
  | j :: rest =>
    match decodeShrub j, decodeShrubs rest with
    | some s, some ss => some (s :: ss)
    | _, _ => none

/-- The `for shrub in shrubs` loop at the end of `load_level`: each decoded
shrub is created (joining `self.layers` at creation), selected and placed in
turn; a malformed shrub raises mid-loop, leaving the already placed ones
behind. -/
def loadShrubs : EditorState → List Json → Option LoadErr × EditorState
  | st, [] => (none, st)
  | st, j :: rest =>
    match decodeShrub j with
    | none => (some LoadErr.badShrub, st)
    | some s => loadShrubs { st with layers := st.layers ++ [LSprite.shrub s] } rest

/-- `GameEdit.load_level(background, shrubs, show_hud)` (`tower/game.py`,
lines 935-957): FIRST `self.layers.empty()`, then the level map is rebuilt
from the raw grid (a failure there leaves the old `self.level` in place but
the registry already emptied, the HUD not yet created), then `mode.reset()`
and `make_hud()` (which adds the HUD sprite under the `hud` condition), then
the shrubs are placed one by one. -/
def load_level (st : EditorState) (hud : Bool) (bg shrubs : Json) :
    Option LoadErr × EditorState :=
  match create_background_tile_map bg with
  | none => (some LoadErr.badBackground, { st with layers := [] })
  | some level =>
    match shrubs.asArr? with
    | none => (some LoadErr.badShrubs,
        { level := some level, layers := hudSprites hud })
    | some sh => loadShrubs { level := some level, layers := hudSprites hud } sh

/-- `GameEdit.open_level(file_obj, show_hud)` (`tower/game.py`, lines
1269-1273): `json.loads` first (`none` = parse failure, before any
mutation), then `data["background"]` and `data["shrubs"]` are evaluated as
call arguments — a `KeyError` there is raised before `load_level` runs. -/
def open_level (st : EditorState) (hud : Bool) (doc : Option Json) :
    Option LoadErr × EditorState :=
  match doc with
  | none => (some LoadErr.parseError, st)
  | some d =>
    match d.get? bgKey, d.get? shrubsKey with
    | some bg, some sh => load_level st hud bg sh
    | _, _ => (some LoadErr.missingKey, st)

theorem loadShrubs_of_decode_some (js : List Json) :
    ∀ (st : EditorState) (ss : List ShrubS), decodeShrubs js = some ss →
      loadShrubs st js = (none, { st with layers := st.layers ++ ss.map LSprite.shrub }) := by
  induction js with
  | nil =>
    intro st ss h
    rw [decodeShrubs] at h
    cases h
    simp [loadShrubs]
  | cons j rest ih =>
    intro st ss h
    rw [decodeShrubs] at h
    cases hj : decodeShrub j with
    | none => rw [hj] at h; cases h
    | some s =>
      rw [hj] at h
      cases hr : decodeShrubs rest with
      | none => rw [hr] at h; cases h
      | some ss2 =>
        rw [hr] at h
        cases h
        simp only [loadShrubs, hj]
        rw [ih _ ss2 hr]
        simp [List.append_assoc]

theorem loadShrubs_stops_at_bad (good : List Json) :
    ∀ (st : EditorState) (ss : List ShrubS) (bad : Json) (rest : List Json),
      decodeShrubs good = some ss → decodeShrub bad = none →
      loadShrubs st (good ++ bad :: rest) =
        (some LoadErr.badShrub,
          { st with layers := st.layers ++ ss.map LSprite.shrub }) := by
  induction good with
  | nil =>
    intro st ss bad rest h hbad
    rw [decodeShrubs] at h
    cases h
    rw [List.nil_append, loadShrubs, hbad]
    simp
  | cons g good2 ih =>
    intro st ss bad rest h hbad
    rw [decodeShrubs] at h
    cases hg : decodeShrub g with
    | none => rw [hg] at h; cases h
    | some s =>
      rw [hg] at h
      cases hr : decodeShrubs good2 with
      | none => rw [hr] at h; cases h
      | some ss2 =>
        rw [hr] at h
        cases h
        rw [List.cons_append]
        simp only [loadShrubs, hg]
        rw [ih _ ss2 bad rest hr hbad]
        simp [List.append_assoc]

theorem loadShrubs_none_inv (js : List Json) :
    ∀ (st r : EditorState), loadShrubs st js = (none, r) →
      ∃ ss, decodeShrubs js = some ss ∧
        r = { st with layers := st.layers ++ ss.map LSprite.shrub } := by
  induction js with
  | nil =>
    intro st r h
    rw [loadShrubs] at h
    cases h
    exact ⟨[], rfl, by simp⟩
  | cons j rest ih =>
    intro st r h
    rw [loadShrubs] at h
    cases hj : decodeShrub j with
    | none => rw [hj] at h; cases h
    | some s =>
      rw [hj] at h
      obtain ⟨ss2, hdec, hr⟩ := ih _ r h
      refine ⟨s :: ss2, ?_, ?_⟩
      · rw [decodeShrubs, hj, hdec]
      · rw [hr]; simp

def blankIdx : String := "blank"

/-- A state with a previously loaded level and a non-empty layer registry. -/
def loadedSt : EditorState :=
  { level := some [[⟨blankIdx, 0⟩]], layers := [LSprite.other 7] }

/-- A document with both top-level keys present but an empty (hence
malformed: no rows) background grid. -/
def badDoc : Json :=
  Json.obj [(bgKey, Json.arr []), (shrubsKey, Json.arr [])]

/-- C8, counterexample: opening a document whose top-level shape is right but
whose background grid is malformed surfaces an error, yet does NOT leave the
previously loaded state unchanged: `self.layers.empty()` has already run, so
the sprite layer registry is wiped. -/
theorem open_level_partial_mutation :
    (open_level loadedSt true (some badDoc)).1 = some LoadErr.badBackground ∧
    ¬ (open_level loadedSt true (some badDoc)).2 = loadedSt ∧
    (open_level loadedSt true (some badDoc)).2.layers = [] ∧
    loadedSt.layers ≠ [] := by
  decide

/-- C8, amended: every malformed level document makes `open_level` surface an
error, and a load that surfaces no error performed a complete load; a parse
failure or a missing `background`/`shrubs` top-level key is raised before
any mutation, leaving the state unchanged; but once both keys are present
the failed load is not atomic: a malformed background grid errors only after
the sprite layer registry was emptied (the level map left stale), a
non-array `shrubs` value errors after the level map was already replaced
(registry holding just the HUD), and a malformed shrub entry errors after
the level map was replaced and every earlier shrub was already placed. -/
theorem open_level_error_effects (st : EditorState) (hud : Bool) (d bg sh : Json) :
    (open_level st hud none = (some LoadErr.parseError, st)) ∧
    ((Json.get? d bgKey = none ∨ Json.get? d shrubsKey = none) →
      open_level st hud (some d) = (some LoadErr.missingKey, st)) ∧
    (create_background_tile_map bg = none →
      load_level st hud bg sh =
        (some LoadErr.badBackground, { st with layers := [] })) ∧
    (∀ level, create_background_tile_map bg = some level → Json.asArr? sh = none →
      load_level st hud bg sh =
        (some LoadErr.badShrubs,
          { level := some level, layers := hudSprites hud })) ∧
    (∀ level good bad rest ss, create_background_tile_map bg = some level →
      Json.asArr? sh = some (good ++ bad :: rest) →
      decodeShrubs good = some ss → decodeShrub bad = none →
      load_level st hud bg sh =
        (some LoadErr.badShrub,
          { level := some level,
            layers := hudSprites hud ++ ss.map LSprite.shrub })) ∧
    (∀ doc r, open_level st hud doc = (none, r) →
      ∃ d2 bgv shv level js ss, doc = some d2 ∧
        Json.get? d2 bgKey = some bgv ∧ Json.get? d2 shrubsKey = some shv ∧
        create_background_tile_map bgv = some level ∧
        Json.asArr? shv = some js ∧ decodeShrubs js = some ss ∧
        r = { level := some level,
              layers := hudSprites hud ++ ss.map LSprite.shrub }) := by
  refine ⟨rfl, ?_, ?_, ?_, ?_, ?_⟩
  · intro h
    rcases h with h | h
    · cases hs : Json.get? d shrubsKey <;> simp [open_level, h, hs]
    · cases hb : Json.get? d bgKey <;> simp [open_level, h, hb]
  · intro h
    simp [load_level, h]
  · intro level hbg hsh
    simp [load_level, hbg, hsh]
  · intro level good bad rest ss hbg hsh hgood hbad
    simp only [load_level, hbg, hsh]
    rw [loadShrubs_stops_at_bad good _ ss bad rest hgood hbad]
  · intro doc r h
    cases doc with
    | none => rw [open_level] at h; cases h
    | some d2 =>
      rw [open_level] at h
      cases hb : Json.get? d2 bgKey with
      | none => simp only [hb] at h; cases h
      | some bgv =>
        cases hs : Json.get? d2 shrubsKey with
        | none => simp only [hb, hs] at h; cases h
        | some shv =>
          simp only [hb, hs] at h
          cases hmap : create_background_tile_map bgv with
          | none => simp only [load_level, hmap] at h; cases h
          | some level =>
            cases harr : Json.asArr? shv with
            | none => simp only [load_level, hmap, harr] at h; cases h
            | some js =>
              simp only [load_level, hmap, harr] at h
              obtain ⟨ss, hdec, hr⟩ := loadShrubs_none_inv js _ r h
              exact ⟨d2, bgv, shv, level, js, ss, rfl, hb, hs, hmap, harr, hdec, by
                rw [hr]⟩
